import Mathlib

/-!
Shallow embedding of the employee location tracker (`server.js`, two
revisions): the CSV-backed record store (`readEmployees`/`writeEmployees`),
the reverse-geocoding cache (`getCacheKey`/`getCityFromCoordinates`), and the
mutating HTTP handlers (`POST /update-location`, `POST /stop-sharing`,
`POST /create-employee`).

JavaScript strings are modelled as `List Char`; machine time (`Date.now()`)
as an integer millisecond count; coordinates as rationals (the server only
compares them and hands them to the geocoder, so exact arithmetic is
faithful for every property checked here).  The file system is modelled by
the CSV file's content: `none` stands for a missing file or a thrown read
error, which the source maps to the same result.
-/

namespace LocTrack

/-- Characters of a JavaScript string. -/
abbrev Chars := List Char

/-- Whitespace as `String.prototype.trim` sees it (the code points that occur
in this system's data: space, tab, CR, LF). -/
def isWS (c : Char) : Bool := c = ' ' || c = '\t' || c = '\r' || c = '\n'

/-- JS `s.trim()`: drop whitespace from both ends. -/
def trimChars (l : Chars) : Chars :=
  ((l.dropWhile isWS).reverse.dropWhile isWS).reverse

/-- JS `s.split(sep)` for a single-character separator (`','` in
`readEmployees`, `'\n'` for lines). -/
def splitOnChar (sep : Char) : Chars → List Chars
  | [] => [[]]
  | c :: cs =>
    if c = sep then [] :: splitOnChar sep cs
    else
      match splitOnChar sep cs with
      | [] => [[c]]
      | f :: fs => (c :: f) :: fs

/-- JS `array.join(sep)` for a single-character separator. -/
def intercalateChar (sep : Char) : List Chars → Chars
  | [] => []
  | [l] => l
  | l :: l2 :: ls => l ++ sep :: intercalateChar sep (l2 :: ls)

/-- `split(/\r?\n/)` preprocessing: the regex consumes an optional CR right
before each LF and nothing else, so it equals normalising each CRLF pair to
LF and then splitting on LF. -/
def normNewlines : Chars → Chars
  | [] => []
  | [c] => [c]
  | c :: c2 :: cs =>
    if c = '\r' ∧ c2 = '\n' then '\n' :: normNewlines cs
    else c :: normNewlines (c2 :: cs)

/-- One employee record as stored in `employees.csv`; every field is a
string (latitude/longitude/lastSeen are empty when not sharing). -/
structure Employee where
  id : String
  name : String
  email : String
  latitude : String
  longitude : String
  city : String
  lastSeen : String
  deriving DecidableEq, Repr

instance : BEq Employee := ⟨fun a b => decide (a = b)⟩

instance : LawfulBEq Employee where
  eq_of_beq h := of_decide_eq_true h
  rfl := decide_eq_true rfl

/-- JS `s || d` on strings: the empty string is falsy. -/
def jsOr (s d : Chars) : Chars := if s = [] then d else s

/-- `replace(/"/g, '""')` in `writeEmployees`. -/
def dupQuotes : Chars → Chars
  | [] => []
  | c :: cs => if c = '"' then '"' :: '"' :: dupQuotes cs else c :: dupQuotes cs

/-- A text field as `writeEmployees` emits it: wrapped in quotes, embedded
quotes doubled. -/
def quoteField (l : Chars) : Chars := '"' :: (dupQuotes l ++ ['"'])

/-- The CSV header row. -/
def headerChars : Chars := "id,name,email,latitude,longitude,city,lastSeen".data

/-- One CSV line for a record (`writeEmployees` loop body).  `emp.name || ''`,
`emp.email || ''`, `emp.latitude || ''`, `emp.longitude || ''` and
`emp.lastSeen || ''` are identities on strings and are written as the plain
field; `emp.city || 'Unknown'` is `jsOr`. -/
def encodeEmp (e : Employee) : Chars :=
  intercalateChar ','
    [e.id.data, quoteField e.name.data, quoteField e.email.data,
     e.latitude.data, e.longitude.data,
     quoteField (jsOr e.city.data "Unknown".data), e.lastSeen.data]

/-- `writeEmployees`: the full CSV file written (header, one line per record,
LF-joined, trailing LF).  A successful file write is assumed; an `fs` error
(the `false` return) is outside the store model. -/
def writeEmployees (emps : List Employee) : String :=
  String.mk (intercalateChar '\n' (headerChars :: emps.map encodeEmp) ++ ['\n'])

/-- `replace(/^"|"$/g, '')`, leading half: one leading quote removed. -/
def dropLeadQuote : Chars → Chars
  | [] => []
  | c :: cs => if c = '"' then cs else c :: cs

/-- `replace(/^"|"$/g, '')`, trailing half: one trailing quote removed. -/
def dropTailQuote (l : Chars) : Chars :=
  if l.getLast? = some '"' then l.dropLast else l

/-- `parts[i].replace(/^"|"$/g, '')`: the two regex alternatives match at
most once each and do not overlap (a lone `"` is consumed by the leading
alternative, which is also what sequencing the two halves computes). -/
def stripQuotes (l : Chars) : Chars := dropTailQuote (dropLeadQuote l)

/-- A parsed CSV field: quotes stripped, then trimmed. -/
def parseField (l : Chars) : Chars := trimChars (stripQuotes l)

/-- Field extraction shared by both revisions of `readEmployees`: defaults
`name`/`city` to `Unknown` on falsy, skips the row when the parsed id is
empty. -/
def rowEmp (parts : List Chars) : Option Employee :=
  if parseField (parts.getD 0 []) = [] then none
  else some
    ⟨String.mk (parseField (parts.getD 0 [])),
     String.mk (jsOr (parseField (parts.getD 1 [])) "Unknown".data),
     String.mk (parseField (parts.getD 2 [])),
     String.mk (parseField (parts.getD 3 [])),
     String.mk (parseField (parts.getD 4 [])),
     String.mk (jsOr (parseField (parts.getD 5 [])) "Unknown".data),
     String.mk (parseField (parts.getD 6 []))⟩

/-- One data row of the first revision's `readEmployees`: skip blank lines,
rows with fewer than 7 comma-separated parts, and rows whose parsed id is
empty; never raise. -/
def parseRow (line : Chars) : Option Employee :=
  if trimChars line = [] then none
  else if (splitOnChar ',' line).length < 7 then none
  else rowEmp (splitOnChar ',' line)

/-- One data row of the second revision's `readEmployees`: same, without the
blank-line pre-check. -/
def parseRow2 (line : Chars) : Option Employee :=
  if (splitOnChar ',' line).length < 7 then none
  else rowEmp (splitOnChar ',' line)

/-- `readEmployees`, first revision (lines 134–166): `none` is a missing file
or a thrown read error; empty or whitespace-only content gives `[]`;
otherwise drop the header and parse each line, dropping skipped rows. -/
def readEmployees (file : Option String) : List Employee :=
  match file with
  | none => []
  | some s =>
    if trimChars s.data = [] then []
    else ((splitOnChar '\n' (normNewlines (trimChars s.data))).drop 1).filterMap parseRow

/-- `readEmployees`, second revision (lines 490–533): splits on `'\n'` only. -/
def readEmployees2 (file : Option String) : List Employee :=
  match file with
  | none => []
  | some s =>
    if trimChars s.data = [] then []
    else ((splitOnChar '\n' (trimChars s.data)).drop 1).filterMap parseRow2

/-! ## Geocoding cache -/

/-- JS `Math.round(x * 10)`, i.e. `⌊x·10 + 1/2⌋` (`Math.round` rounds half
toward positive infinity), computed on the reduced fraction so that concrete
keys evaluate by `decide`; `jsRound10_eq` below proves the two readings
equal. -/
def jsRound10 (q : ℚ) : ℤ := (20 * q.num + (q.den : ℤ)) / (2 * (q.den : ℤ))

/-- `getCacheKey`: the coordinates rounded to one decimal degree.  The source
renders the pair `(Math.round(lat*10) / 10, Math.round(lng*10) / 10)` as the
string `` `${x},${y}` ``; distinct integer pairs render to distinct strings,
so the integer pair serves as the key. -/
def getCacheKey (lat lng : ℚ) : ℤ × ℤ := (jsRound10 lat, jsRound10 lng)

/-- One `cityCache` entry: the resolved name and the `Date.now()` it was
stored. -/
structure CacheEntry where
  city : String
  timestamp : ℤ
  deriving DecidableEq, Repr

/-- The in-memory `cityCache` map. -/
def Cache := ℤ × ℤ → Option CacheEntry

/-- The empty `cityCache` at process start. -/
def emptyCache : Cache := fun _ => none

/-- `CACHE_TTL = 1000 * 60 * 60 * 24` milliseconds. -/
def CACHE_TTL : ℤ := 1000 * 60 * 60 * 24

/-- The address components the handler inspects; a missing JSON field is
`none`. -/
structure GeoAddress where
  city : Option String
  town : Option String
  village : Option String
  hamlet : Option String
  county : Option String
  state : Option String
  country : Option String

/-- A parsed upstream response body. -/
structure GeoResponse where
  address : Option GeoAddress
  display_name : Option String

/-- JS truthiness of an optional string: absent or empty is falsy. -/
def jsTruthy : Option String → Option String
  | some s => if s = "" then none else some s
  | none => none

/-- `display_name.split(',')[0]`. -/
def firstSegment (s : String) : String :=
  String.mk ((splitOnChar ',' s.data).headD [])

/-- Place-name resolution from a successful response (first revision, lines
110–122): the first truthy address field in the fixed priority order, else
``Near <leading display-name segment>`` with `Unknown Location` standing in
for a missing or empty segment; `Unknown` when the response carries no
address object. -/
def pickCity (r : GeoResponse) : String :=
  match r.address with
  | none => "Unknown"
  | some a =>
    match jsTruthy a.city <|> jsTruthy a.town <|> jsTruthy a.village <|>
        jsTruthy a.hamlet <|> jsTruthy a.county <|> jsTruthy a.state <|>
        jsTruthy a.country with
    | some c => c
    | none =>
      "Near " ++ (match r.display_name with
        | none => "Unknown Location"
        | some d => if firstSegment d = "" then "Unknown Location" else firstSegment d)

/-- Place-name resolution of the second revision (lines 468–478): no optional
chaining and no `|| 'Unknown Location'` guard.  With an address object but no
truthy field, `` `Near ${data.display_name.split(',')[0]}` `` throws a
`TypeError` when `display_name` is absent — modelled as `none` — and an empty
leading segment interpolates to the bare `"Near "`. -/
def pickCity2 (r : GeoResponse) : Option String :=
  match r.address with
  | none => some "Unknown"
  | some a =>
    match jsTruthy a.city <|> jsTruthy a.town <|> jsTruthy a.village <|>
        jsTruthy a.hamlet <|> jsTruthy a.county <|> jsTruthy a.state <|>
        jsTruthy a.country with
    | some c => some c
    | none =>
      match r.display_name with
      | none => none
      | some d => some ("Near " ++ firstSegment d)

/-- What the second revision's handler resolves from a successfully parsed
response: the try-block's name, where a thrown resolution lands in the catch
(lines 482–486), which returns `Unknown` (and caches it like any failure). -/
def resolvedCity2 (r : GeoResponse) : String := (pickCity2 r).getD "Unknown"

/-- What one `getCityFromCoordinates` call produced: the returned name, the
cache afterwards, and whether the upstream service was called. -/
structure GeoResult where
  city : String
  cache : Cache
  called : Bool

/-- The fetch path of `getCityFromCoordinates`.  `upstream` yields the parsed
body on success and `none` on any failure — network error, non-ok status, or
JSON parse failure — which the `catch` branch (lines 126–130) turns into
`Unknown`, cached like a success. -/
def fetchCity (upstream : ℚ → ℚ → Option GeoResponse) (now : ℤ) (cache : Cache)
    (lat lng : ℚ) : GeoResult :=
  let key := getCacheKey lat lng
  match upstream lat lng with
  | some r =>
    let c := pickCity r
    ⟨c, fun k => if k = key then some ⟨c, now⟩ else cache k, true⟩
  | none =>
    ⟨"Unknown", fun k => if k = key then some ⟨"Unknown", now⟩ else cache k, true⟩

/-- `getCityFromCoordinates` (lines 89–131): serve a cached bucket entry
younger than the TTL without a network call, otherwise fetch and store. -/
def getCityFromCoordinates (upstream : ℚ → ℚ → Option GeoResponse) (now : ℤ)
    (cache : Cache) (lat lng : ℚ) : GeoResult :=
  match cache (getCacheKey lat lng) with
  | some e =>
    if now - e.timestamp < CACHE_TTL then ⟨e.city, cache, false⟩
    else fetchCity upstream now cache lat lng
  | none => fetchCity upstream now cache lat lng

/-! ## HTTP handlers -/

/-- Outcome of `POST /update-location`: 400, 404, or the success body. -/
inductive UpdateResult
  | badRequest (msg : String)
  | notFound
  | ok (city : String)
  deriving DecidableEq, Repr

/-- Whether an outcome is the 400 client-error response. -/
def UpdateResult.isClientError : UpdateResult → Bool
  | .badRequest _ => true
  | _ => false

/-- JS `Number.prototype.toString` for the coordinate strings written back to
the store.  No claim inspects the rendering, so the Lean rendering of the
rational stands in for it. -/
def numToString (q : ℚ) : String := toString q

/-- `POST /update-location`, first revision (lines 267–322).  `store` is the
record list `readEmployees()` returned; the returned list is what
`writeEmployees` persists (equal to `store` when no write happens).
`lat?`/`lng?` are the request coordinates after `parseFloat`: `none` models a
field that is missing (`== null`, checked first in the source) or does not
parse (`NaN`, checked after); both checks answer 400 before anything else
runs, so they are folded into the one fallback arm here.  A missing id is
the falsy `""`.  `nowIso` is `new Date().toISOString()`. -/
def updateLocation (upstream : ℚ → ℚ → Option GeoResponse) (now : ℤ)
    (nowIso : String) (cache : Cache) (store : List Employee) (id : String)
    (lat? lng? : Option ℚ) : UpdateResult × List Employee × Cache :=
  match lat?, lng? with
  | some lat, some lng =>
    if id = "" then (.badRequest "Missing data", store, cache)
    else if lat < -90 ∨ 90 < lat ∨ lng < -180 ∨ 180 < lng then
      (.badRequest "Coordinates out of range", store, cache)
    else
      match store.find? (fun e => e.id = id) with
      | none => (.notFound, store, cache)
      | some emp =>
        let g := getCityFromCoordinates upstream now cache lat lng
        let updated : Employee :=
          ⟨id, emp.name, emp.email, numToString lat, numToString lng,
            g.city, nowIso⟩
        (.ok g.city, store.filter (fun e => ¬e.id = id) ++ [updated], g.cache)
  | _, _ => (.badRequest "Missing data", store, cache)

/-- Replace the first record carrying `id` (in-place mutation of the object
`find`/`findIndex` located). -/
def updateFirst (f : Employee → Employee) (id : String) :
    List Employee → List Employee
  | [] => []
  | e :: es => if e.id = id then f e :: es else e :: updateFirst f id es

/-- The field assignments of the second revision's location update. -/
def setLoc (lat lng : ℚ) (city iso : String) (e : Employee) : Employee :=
  { e with latitude := numToString lat, longitude := numToString lng, city := city, lastSeen := iso }

/-- `POST /update-location`, second revision (lines 691–736): same
validation, but the geocoder runs before the existence check, and a found
record is updated in place, preserving order. -/
def updateLocation2 (upstream : ℚ → ℚ → Option GeoResponse) (now : ℤ)
    (nowIso : String) (cache : Cache) (store : List Employee) (id : String)
    (lat? lng? : Option ℚ) : UpdateResult × List Employee × Cache :=
  match lat?, lng? with
  | some lat, some lng =>
    if id = "" then (.badRequest "Missing data", store, cache)
    else if lat < -90 ∨ 90 < lat ∨ lng < -180 ∨ 180 < lng then
      (.badRequest "Invalid coordinates", store, cache)
    else
      let g := getCityFromCoordinates upstream now cache lat lng
      if store.any (fun e => e.id = id) then
        (.ok g.city, updateFirst (setLoc lat lng g.city nowIso) id store, g.cache)
      else (.notFound, store, g.cache)
  | _, _ => (.badRequest "Missing data", store, cache)

/-- Outcome of `POST /stop-sharing`. -/
inductive StopResult
  | badRequest
  | success
  deriving DecidableEq, Repr

/-- The blanking `stop-sharing` performs on the found record. -/
def clearLoc (e : Employee) : Employee :=
  { e with latitude := "", longitude := "", city := "Unknown", lastSeen := "" }

/-- `POST /stop-sharing` (lines 325–346; the second revision, lines 739–766,
computes the same store): 400 on a falsy id; success without a write when the
id is unknown; otherwise blank the first matching record and persist. -/
def stopSharing (store : List Employee) (id : String) :
    StopResult × List Employee :=
  if id = "" then (.badRequest, store)
  else if store.any (fun e => e.id = id) then
    (.success, updateFirst clearLoc id store)
  else (.success, store)

/-- Outcome of `POST /create-employee` (the route answers 200 either way; the
body's `success` flag distinguishes). -/
inductive CreateResult
  | failure (msg : String)
  | success
  deriving DecidableEq, Repr

/-- `POST /create-employee` (second revision, lines 651–681): all three
fields required, duplicate ids rejected, otherwise append a blank-location
record and persist. -/
def createEmployee (store : List Employee) (id name email : String) :
    CreateResult × List Employee :=
  if id = "" ∨ name = "" ∨ email = "" then (.failure "All fields are required", store)
  else if store.any (fun e => e.id = id) then (.failure "ID already exists", store)
  else (.success, store ++ [⟨id, name, email, "", "", "Unknown", ""⟩])

/-! ## Predicates the claims quantify over -/

/-- Equality of two record lists as unordered collections. -/
def recordSetEq (l1 l2 : List Employee) : Bool :=
  l1.all (fun e => l2.contains e) && l2.all (fun e => l1.contains e)

/-- A character the CSV layer transports untouched: not a field separator,
not a quote, not a line break. -/
def plainChar (c : Char) : Bool := !(c = ',' || c = '"' || c = '\n' || c = '\r')

/-- A field value the CSV layer round-trips: plain characters only and no
leading or trailing whitespace (the reader trims every field). -/
def goodField (s : String) : Bool :=
  s.data.all plainChar && (trimChars s.data == s.data)

/-- A record the CSV layer round-trips: good fields, and the three values the
reader replaces when falsy — id (row dropped), name and city (defaulted to
`Unknown`) — are nonempty. -/
def goodEmp (e : Employee) : Bool :=
  goodField e.id && goodField e.name && goodField e.email &&
  goodField e.latitude && goodField e.longitude && goodField e.city &&
  goodField e.lastSeen && !(e.id == "") && !(e.name == "") && !(e.city == "")

/-- The store invariant of §3: ids are unique across the record set. -/
def idsUnique (l : List Employee) : Prop := (l.map Employee.id).Nodup

instance : DecidablePred idsUnique := fun l =>
  inferInstanceAs (Decidable ((l.map Employee.id).Nodup))

/-- A field free of line breaks — the only restriction the round-trip claim
itself places on field text. -/
def noNewline (s : String) : Bool := s.data.all (fun c => !(c = '\n' || c = '\r'))

/-- The seven fields of a record, in file order. -/
def empFields (e : Employee) : List String :=
  [e.id, e.name, e.email, e.latitude, e.longitude, e.city, e.lastSeen]

/-- Place-name resolution as `pickCity` actually behaves, stated
independently (first nonempty structured field via a list search; otherwise
`Near` + the leading display-name segment, `Near Unknown Location` when that
segment is missing or empty; `Unknown` only when the response carries no
address object). -/
def amendedPlaceName (r : GeoResponse) : String :=
  match r.address with
  | none => "Unknown"
  | some a =>
    match (([a.city, a.town, a.village, a.hamlet, a.county, a.state,
        a.country]).filterMap jsTruthy).head? with
    | some c => c
    | none =>
      match r.display_name with
      | some d =>
        if firstSegment d = "" then "Near Unknown Location"
        else "Near " ++ firstSegment d
      | none => "Near Unknown Location"

/-- Place-name resolution as the second revision actually behaves, stated
independently: first nonempty structured field via a list search; otherwise
`Near` + the leading display-name segment (bare `"Near "` when that segment
is empty); `Unknown` when the response carries no address object *or* when
the display name is missing, since the latter throws and the catch answers
`Unknown`. -/
def amendedPlaceName2 (r : GeoResponse) : String :=
  match r.address with
  | none => "Unknown"
  | some a =>
    match (([a.city, a.town, a.village, a.hamlet, a.county, a.state,
        a.country]).filterMap jsTruthy).head? with
    | some c => c
    | none =>
      match r.display_name with
      | some d => "Near " ++ firstSegment d
      | none => "Unknown"

/-! ### Concrete fixtures used by witnesses and counterexamples -/

/-- 40.71 as a reduced fraction. -/
def qa : ℚ := ⟨4071, 100, by decide, by decide⟩

/-- 40.74 as a reduced fraction. -/
def qb : ℚ := ⟨2037, 50, by decide, by decide⟩

/-- −74.00. -/
def qc : ℚ := ⟨-74, 1, by decide, by decide⟩

/-- −74.02 as a reduced fraction. -/
def qd : ℚ := ⟨-3701, 50, by decide, by decide⟩

/-- An upstream geocoder that always fails. -/
def upFail : ℚ → ℚ → Option GeoResponse := fun _ _ => none

/-- A record with every field in the round-trip-safe fragment. -/
def wEmp : Employee :=
  ⟨"e1", "Alice", "a@x.com", "51.5074", "-0.1278", "London", "2024-01-01T00:00:00Z"⟩

/-- A second such record. -/
def wEmp2 : Employee := ⟨"e2", "Bob", "b@x.com", "", "", "Unknown", ""⟩

/-- A record whose name contains a comma but no newline: inside the round-trip
claim's stated proviso, outside what the CSV layer can reproduce. -/
def cexEmp : Employee := ⟨"e1", "a,b", "", "", "", "Unknown", ""⟩

/-- A response with no usable structured address field and a two-segment
display name. -/
def respDisplayOnly : GeoResponse :=
  ⟨some ⟨none, none, none, none, none, none, none⟩, some "Springfield, IL"⟩

/-! ## Lemmas about the string model -/

theorem splitOnChar_ne_nil (sep : Char) (l : Chars) : splitOnChar sep l ≠ [] := by
  induction l with
  | nil => simp [splitOnChar]
  | cons c cs ih =>
    simp only [splitOnChar]
    split
    · simp
    · cases h : splitOnChar sep cs with
      | nil => simp
      | cons f fs => simp

theorem splitOnChar_of_not_mem {sep : Char} {l : Chars} (h : sep ∉ l) :
    splitOnChar sep l = [l] := by
  induction l with
  | nil => rfl
  | cons c cs ih =>
    have hc : ¬c = sep := fun hh => h (List.mem_cons.mpr (Or.inl hh.symm))
    have hcs : sep ∉ cs := fun hh => h (List.mem_cons_of_mem c hh)
    simp only [splitOnChar, if_neg hc, ih hcs]

theorem splitOnChar_append {sep : Char} {l : Chars} (h : sep ∉ l) (r : Chars) :
    splitOnChar sep (l ++ sep :: r) = l :: splitOnChar sep r := by
  induction l with
  | nil => simp [splitOnChar]
  | cons c cs ih =>
    have hc : ¬c = sep := fun hh => h (List.mem_cons.mpr (Or.inl hh.symm))
    have hcs : sep ∉ cs := fun hh => h (List.mem_cons_of_mem c hh)
    simp only [List.cons_append, splitOnChar, if_neg hc, List.append_eq, ih hcs]

theorem splitOnChar_intercalateChar (sep : Char) :
    ∀ (lines : List Chars), lines ≠ [] → (∀ l ∈ lines, sep ∉ l) →
      splitOnChar sep (intercalateChar sep lines) = lines
  | [], h, _ => absurd rfl h
  | [l], _, h => by
    simpa [intercalateChar] using splitOnChar_of_not_mem (h l (by simp))
  | l :: l2 :: ls, _, h => by
    rw [intercalateChar, splitOnChar_append (h l (by simp)),
      splitOnChar_intercalateChar sep (l2 :: ls) (by simp)
        (fun x hx => h x (List.mem_cons_of_mem _ hx))]

theorem normNewlines_of_not_mem : ∀ {l : Chars}, '\r' ∉ l → normNewlines l = l
  | [], _ => rfl
  | [_], _ => rfl
  | c :: c2 :: cs, h => by
    have hc : ¬(c = '\r' ∧ c2 = '\n') :=
      fun hh => h (List.mem_cons.mpr (Or.inl hh.1.symm))
    rw [normNewlines, if_neg hc,
      normNewlines_of_not_mem (fun hh => h (List.mem_cons_of_mem _ hh))]

theorem not_mem_intercalateChar {c sep : Char} (hcs : c ≠ sep) :
    ∀ {lines : List Chars}, (∀ l ∈ lines, c ∉ l) → c ∉ intercalateChar sep lines
  | [], _ => by simp [intercalateChar]
  | [l], h => by simpa [intercalateChar] using h l (by simp)
  | l :: l2 :: ls, h => by
    rw [intercalateChar]
    intro hmem
    rcases List.mem_append.mp hmem with h1 | h1
    · exact h l (by simp) h1
    · rcases List.mem_cons.mp h1 with h2 | h2
      · exact hcs h2
      · exact not_mem_intercalateChar hcs
          (fun x hx => h x (List.mem_cons_of_mem _ hx)) h2

theorem sep_mem_intercalateChar (sep : Char) (l1 l2 : Chars) (ls : List Chars) :
    sep ∈ intercalateChar sep (l1 :: l2 :: ls) := by
  rw [intercalateChar]
  exact List.mem_append.mpr (Or.inr (List.mem_cons_self _ _))

theorem head?_intercalateChar (sep : Char) (l : Chars) (ls : List Chars) (h : l ≠ []) :
    (intercalateChar sep (l :: ls)).head? = l.head? := by
  cases ls with
  | nil => rfl
  | cons l2 ls2 =>
    rw [intercalateChar]
    exact List.head?_append_of_ne_nil _ h

theorem intercalateChar_ne_nil (sep : Char) (l : Chars) (ls : List Chars)
    (h : l ≠ []) : intercalateChar sep (l :: ls) ≠ [] := by
  intro hz
  have h2 := head?_intercalateChar sep l ls h
  rw [hz] at h2
  cases l with
  | nil => exact h rfl
  | cons x xs => simp at h2

theorem mem_trimChars_all_ws {l : Chars} (h : trimChars l = []) :
    ∀ c ∈ l, isWS c = true := by
  intro c hc
  unfold trimChars at h
  rw [List.reverse_eq_nil_iff, List.dropWhile_eq_nil_iff] at h
  by_contra hw
  have hcd : c ∈ List.dropWhile isWS l := by
    have h3 := List.takeWhile_append_dropWhile isWS l
    have h4 : c ∈ List.takeWhile isWS l ++ List.dropWhile isWS l := by
      rw [h3]; exact hc
    rcases List.mem_append.mp h4 with h5 | h5
    · exact absurd (List.mem_takeWhile_imp h5) hw
    · exact h5
  exact hw (h c (List.mem_reverse.mpr hcd))

theorem trimChars_ne_nil {l : Chars} {c : Char} (hc : c ∈ l) (hw : isWS c = false) :
    trimChars l ≠ [] := fun h => by
  rw [mem_trimChars_all_ws h c hc] at hw
  simp at hw

theorem head_not_ws_of_trim_self {l : Chars} (h : trimChars l = l) :
    ∀ c, l.head? = some c → isWS c = false := by
  intro c hc
  by_contra hw
  rw [Bool.not_eq_false] at hw
  cases l with
  | nil => simp at hc
  | cons a as =>
    have hac : a = c := by simpa using hc
    subst hac
    have h1 : List.dropWhile isWS (a :: as) = List.dropWhile isWS as := by
      simp [List.dropWhile_cons, hw]
    have h2 : (trimChars (a :: as)).length ≤ as.length := by
      unfold trimChars
      rw [h1]
      calc ((List.dropWhile isWS as).reverse.dropWhile isWS).reverse.length
          = ((List.dropWhile isWS as).reverse.dropWhile isWS).length := by simp
        _ ≤ (List.dropWhile isWS as).reverse.length :=
            (List.dropWhile_sublist isWS).length_le
        _ = (List.dropWhile isWS as).length := by simp
        _ ≤ as.length := (List.dropWhile_sublist isWS).length_le
    rw [h] at h2
    simp only [List.length_cons] at h2
    omega

theorem last_not_ws_of_trim_self {l : Chars} (h : trimChars l = l) :
    ∀ c, l.getLast? = some c → isWS c = false := by
  intro c hc
  by_contra hw
  rw [Bool.not_eq_false] at hw
  by_cases hmn : List.dropWhile isWS l = []
  · have hz : trimChars l = [] := by unfold trimChars; rw [hmn]; rfl
    rw [h] at hz
    subst hz
    simp at hc
  · have hlast : (List.dropWhile isWS l).getLast? = some c := by
      have h3 := List.takeWhile_append_dropWhile isWS l
      conv at hc => rw [← h3]
      rw [List.getLast?_append_of_ne_nil _ hmn] at hc
      exact hc
    obtain ⟨t, hmr⟩ : ∃ t, (List.dropWhile isWS l).reverse = c :: t := by
      have h4 : (List.dropWhile isWS l).reverse.head? = some c := by
        rw [List.head?_reverse]; exact hlast
      cases hr : (List.dropWhile isWS l).reverse with
      | nil => rw [hr] at h4; simp at h4
      | cons x ts =>
        rw [hr] at h4
        simp only [List.head?_cons, Option.some.injEq] at h4
        exact ⟨ts, by rw [h4]⟩
    have hlen : (trimChars l).length ≤ t.length := by
      unfold trimChars
      rw [hmr]
      calc ((c :: t).dropWhile isWS).reverse.length
          = ((c :: t).dropWhile isWS).length := by simp
        _ = (List.dropWhile isWS t).length := by rw [List.dropWhile_cons, hw]; simp
        _ ≤ t.length := (List.dropWhile_sublist isWS).length_le
    have h5 : (List.dropWhile isWS l).length ≤ l.length :=
      (List.dropWhile_sublist isWS).length_le
    have h6 : (List.dropWhile isWS l).length = t.length + 1 := by
      rw [← List.length_reverse (List.dropWhile isWS l), hmr]
      simp
    rw [h] at hlen
    omega

theorem trimChars_append_nl {l : Chars}
    (h1 : ∀ c, l.head? = some c → isWS c = false)
    (h2 : ∀ c, l.getLast? = some c → isWS c = false) :
    trimChars (l ++ ['\n']) = l := by
  cases l with
  | nil => rfl
  | cons a as =>
    have ha : isWS a = false := h1 a rfl
    unfold trimChars
    rw [List.cons_append, List.dropWhile_cons, ha]
    simp only [Bool.false_eq_true, if_false]
    rw [show a :: (as ++ ['\n']) = (a :: as) ++ ['\n'] from rfl, List.reverse_append]
    simp only [List.reverse_cons, List.reverse_nil, List.nil_append,
      List.singleton_append]
    rw [List.dropWhile_cons, if_pos (show isWS '\n' = true from rfl)]
    have h3 : List.dropWhile isWS ((a :: as).reverse) = (a :: as).reverse := by
      cases hr : (a :: as).reverse with
      | nil => rfl
      | cons x ts =>
        have hx : (a :: as).getLast? = some x := by
          rw [← List.head?_reverse, hr]; rfl
        rw [List.dropWhile_cons, h2 x hx]
        simp
    rw [show as.reverse ++ [a] = (a :: as).reverse by simp, h3, List.reverse_reverse]

/-! ## Lemmas about field encoding and parsing -/

theorem dupQuotes_of_not_mem : ∀ {l : Chars}, '"' ∉ l → dupQuotes l = l
  | [], _ => rfl
  | c :: cs, h => by
    have hc : ¬c = '"' := fun hh => h (List.mem_cons.mpr (Or.inl hh.symm))
    rw [dupQuotes, if_neg hc,
      dupQuotes_of_not_mem (fun hh => h (List.mem_cons_of_mem _ hh))]

theorem mem_of_mem_dupQuotes {c : Char} (hc : c ≠ '"') :
    ∀ {l : Chars}, c ∈ dupQuotes l → c ∈ l
  | [], h => by simp [dupQuotes] at h
  | a :: as, h => by
    rw [dupQuotes] at h
    by_cases ha : a = '"'
    · rw [if_pos ha] at h
      rcases List.mem_cons.mp h with h1 | h1
      · exact absurd h1 hc
      rcases List.mem_cons.mp h1 with h2 | h2
      · exact absurd h2 hc
      · exact List.mem_cons_of_mem _ (mem_of_mem_dupQuotes hc h2)
    · rw [if_neg ha] at h
      rcases List.mem_cons.mp h with h1 | h1
      · exact List.mem_cons.mpr (Or.inl h1)
      · exact List.mem_cons_of_mem _ (mem_of_mem_dupQuotes hc h1)

theorem not_mem_quoteField {c : Char} (hc : c ≠ '"') {l : Chars} (h : c ∉ l) :
    c ∉ quoteField l := by
  unfold quoteField
  intro hm
  rcases List.mem_cons.mp hm with h1 | h1
  · exact hc h1
  · rcases List.mem_append.mp h1 with h2 | h2
    · exact h (mem_of_mem_dupQuotes hc h2)
    · rw [List.mem_singleton] at h2
      exact hc h2

theorem stripQuotes_of_not_mem {l : Chars} (h : '"' ∉ l) : stripQuotes l = l := by
  unfold stripQuotes
  have h1 : dropLeadQuote l = l := by
    cases l with
    | nil => rfl
    | cons c cs =>
      have hc : ¬c = '"' := fun hh => h (List.mem_cons.mpr (Or.inl hh.symm))
      simp [dropLeadQuote, hc]
  rw [h1]
  unfold dropTailQuote
  have h2 : ¬l.getLast? = some '"' := by
    intro hg
    have hrv : l.reverse.head? = some '"' := by rw [List.head?_reverse]; exact hg
    exact h (List.mem_reverse.mp (List.mem_of_mem_head? (by simp [hrv])))
  rw [if_neg h2]

theorem stripQuotes_quoteField {l : Chars} (h : '"' ∉ l) :
    stripQuotes (quoteField l) = l := by
  have hdup : dupQuotes l = l := dupQuotes_of_not_mem h
  unfold stripQuotes quoteField
  rw [hdup]
  have h1 : dropLeadQuote ('"' :: (l ++ ['"'])) = l ++ ['"'] := by
    simp [dropLeadQuote]
  rw [h1]
  unfold dropTailQuote
  rw [List.getLast?_concat, if_pos rfl, List.dropLast_concat]

theorem goodField_spec {s : String} (h : goodField s = true) :
    (',' ∉ s.data ∧ '"' ∉ s.data ∧ '\n' ∉ s.data ∧ '\r' ∉ s.data) ∧
      trimChars s.data = s.data := by
  unfold goodField at h
  rw [Bool.and_eq_true] at h
  obtain ⟨h1, h2⟩ := h
  rw [List.all_eq_true] at h1
  refine ⟨⟨?_, ?_, ?_, ?_⟩, by simpa using h2⟩ <;>
    · intro hm
      have h3 := h1 _ hm
      simp [plainChar] at h3

theorem parseField_plain {s : String} (h : goodField s = true) :
    parseField s.data = s.data := by
  obtain ⟨⟨-, hq, -, -⟩, ht⟩ := goodField_spec h
  unfold parseField
  rw [stripQuotes_of_not_mem hq, ht]

theorem parseField_quoted {s : String} (h : goodField s = true) :
    parseField (quoteField s.data) = s.data := by
  obtain ⟨⟨-, hq, -, -⟩, ht⟩ := goodField_spec h
  unfold parseField
  rw [stripQuotes_quoteField hq, ht]

theorem data_ne_nil_of_ne_empty {s : String} (h : s ≠ "") : s.data ≠ [] := by
  intro hd
  exact h (by cases s with | mk d => cases hd; rfl)

theorem jsOr_of_ne_nil {s : Chars} (h : s ≠ []) (d : Chars) : jsOr s d = s :=
  if_neg h

/-! ## Lemmas about whole-line encoding -/

theorem goodEmp_fields {e : Employee} (hg : goodEmp e = true) :
    goodField e.id = true ∧ goodField e.name = true ∧ goodField e.email = true ∧
    goodField e.latitude = true ∧ goodField e.longitude = true ∧
    goodField e.city = true ∧ goodField e.lastSeen = true ∧
    e.id ≠ "" ∧ e.name ≠ "" ∧ e.city ≠ "" := by
  unfold goodEmp at hg
  simp only [Bool.and_eq_true, Bool.not_eq_true', beq_eq_false_iff_ne] at hg
  tauto

theorem lastOK_quoteField (l : Chars) :
    ∀ c, (quoteField l).getLast? = some c → isWS c = false := by
  intro c hc
  unfold quoteField at hc
  rw [show '"' :: (dupQuotes l ++ ['"']) = ('"' :: dupQuotes l) ++ ['"'] from rfl,
    List.getLast?_concat] at hc
  cases hc
  rfl

theorem lastOK_of_goodField {s : String} (h : goodField s = true) :
    ∀ c, s.data.getLast? = some c → isWS c = false :=
  last_not_ws_of_trim_self (goodField_spec h).2

theorem getLast?_intercalateChar_of_sep {sep : Char} (hsep : isWS sep = false) :
    ∀ (lines : List Chars),
      (∀ l ∈ lines, ∀ c, l.getLast? = some c → isWS c = false) →
      ∀ c, (intercalateChar sep lines).getLast? = some c → isWS c = false
  | [], _ => by
    intro c hc
    simp [intercalateChar] at hc
  | [l], h => by
    intro c hc
    exact h l (by simp) c (by simpa [intercalateChar] using hc)
  | l :: l2 :: ls, h => by
    intro c hc
    rw [intercalateChar, List.getLast?_append_cons] at hc
    by_cases hz : intercalateChar sep (l2 :: ls) = []
    · rw [hz] at hc
      simp only [List.getLast?_singleton, Option.some.injEq] at hc
      rw [← hc]
      exact hsep
    · rw [show sep :: intercalateChar sep (l2 :: ls) =
          [sep] ++ intercalateChar sep (l2 :: ls) from rfl,
        List.getLast?_append_of_ne_nil _ hz] at hc
      exact getLast?_intercalateChar_of_sep hsep (l2 :: ls)
        (fun x hx => h x (List.mem_cons_of_mem _ hx)) c hc

theorem getLast?_intercalateChar_of_ne_nil (sep : Char) :
    ∀ (lines : List Chars), (∀ l ∈ lines, l ≠ []) →
      (∀ l ∈ lines, ∀ c, l.getLast? = some c → isWS c = false) →
      ∀ c, (intercalateChar sep lines).getLast? = some c → isWS c = false
  | [], _, _ => by
    intro c hc
    simp [intercalateChar] at hc
  | [l], _, h => by
    intro c hc
    exact h l (by simp) c (by simpa [intercalateChar] using hc)
  | l :: l2 :: ls, hne, h => by
    intro c hc
    rw [intercalateChar, List.getLast?_append_cons] at hc
    have hz : intercalateChar sep (l2 :: ls) ≠ [] :=
      intercalateChar_ne_nil sep l2 ls (hne l2 (by simp))
    rw [show sep :: intercalateChar sep (l2 :: ls) =
        [sep] ++ intercalateChar sep (l2 :: ls) from rfl,
      List.getLast?_append_of_ne_nil _ hz] at hc
    exact getLast?_intercalateChar_of_ne_nil sep (l2 :: ls)
      (fun x hx => hne x (List.mem_cons_of_mem _ hx))
      (fun x hx => h x (List.mem_cons_of_mem _ hx)) c hc

theorem comma_mem_encodeEmp (e : Employee) : ',' ∈ encodeEmp e :=
  sep_mem_intercalateChar ',' _ _ _

theorem encodeEmp_ne_nil (e : Employee) : encodeEmp e ≠ [] :=
  List.ne_nil_of_mem (comma_mem_encodeEmp e)

theorem all_plainChar_of_goodField {s : String} (h : goodField s = true) :
    ∀ c ∈ s.data, plainChar c = true := by
  unfold goodField at h
  rw [Bool.and_eq_true] at h
  exact List.all_eq_true.mp h.1

theorem not_mem_encodeEmp {c : Char} (hc : c ≠ ',') (hq : c ≠ '"')
    (hpc : plainChar c = false) {e : Employee} (hg : goodEmp e = true) :
    c ∉ encodeEmp e := by
  obtain ⟨h1, h2, h3, h4, h5, h6, h7, -, -, hcity⟩ := goodEmp_fields hg
  have hplain : ∀ (s : String), goodField s = true → c ∉ s.data := by
    intro s hs hm
    rw [all_plainChar_of_goodField hs c hm] at hpc
    simp at hpc
  unfold encodeEmp
  apply not_mem_intercalateChar hc
  intro l hl
  simp only [List.mem_cons, List.not_mem_nil, or_false] at hl
  rcases hl with rfl | rfl | rfl | rfl | rfl | rfl | rfl
  · exact hplain _ h1
  · exact not_mem_quoteField hq (hplain _ h2)
  · exact not_mem_quoteField hq (hplain _ h3)
  · exact hplain _ h4
  · exact hplain _ h5
  · rw [jsOr_of_ne_nil (data_ne_nil_of_ne_empty hcity)]
    exact not_mem_quoteField hq (hplain _ h6)
  · exact hplain _ h7

theorem lastOK_encodeEmp {e : Employee} (hg : goodEmp e = true) :
    ∀ c, (encodeEmp e).getLast? = some c → isWS c = false := by
  obtain ⟨h1, h2, h3, h4, h5, h6, h7, -, -, -⟩ := goodEmp_fields hg
  unfold encodeEmp
  apply getLast?_intercalateChar_of_sep (by decide)
  intro l hl
  simp only [List.mem_cons, List.not_mem_nil, or_false] at hl
  rcases hl with rfl | rfl | rfl | rfl | rfl | rfl | rfl
  · exact lastOK_of_goodField h1
  · exact lastOK_quoteField _
  · exact lastOK_quoteField _
  · exact lastOK_of_goodField h4
  · exact lastOK_of_goodField h5
  · exact lastOK_quoteField _
  · exact lastOK_of_goodField h7

theorem splitOnChar_encodeEmp {e : Employee} (hg : goodEmp e = true) :
    splitOnChar ',' (encodeEmp e) =
      [e.id.data, quoteField e.name.data, quoteField e.email.data,
       e.latitude.data, e.longitude.data,
       quoteField (jsOr e.city.data "Unknown".data), e.lastSeen.data] := by
  obtain ⟨h1, h2, h3, h4, h5, h6, h7, -, -, hcity⟩ := goodEmp_fields hg
  have hcomma : ∀ (s : String), goodField s = true → ',' ∉ s.data :=
    fun s hs => (goodField_spec hs).1.1
  unfold encodeEmp
  apply splitOnChar_intercalateChar
  · simp
  · intro l hl
    simp only [List.mem_cons, List.not_mem_nil, or_false] at hl
    rcases hl with rfl | rfl | rfl | rfl | rfl | rfl | rfl
    · exact hcomma _ h1
    · exact not_mem_quoteField (by decide) (hcomma _ h2)
    · exact not_mem_quoteField (by decide) (hcomma _ h3)
    · exact hcomma _ h4
    · exact hcomma _ h5
    · rw [jsOr_of_ne_nil (data_ne_nil_of_ne_empty hcity)]
      exact not_mem_quoteField (by decide) (hcomma _ h6)
    · exact hcomma _ h7

theorem rowEmp_encodeFields {e : Employee} (hg : goodEmp e = true) :
    rowEmp [e.id.data, quoteField e.name.data, quoteField e.email.data,
      e.latitude.data, e.longitude.data,
      quoteField (jsOr e.city.data "Unknown".data), e.lastSeen.data] = some e := by
  obtain ⟨h1, h2, h3, h4, h5, h6, h7, hid, hname, hcity⟩ := goodEmp_fields hg
  unfold rowEmp
  simp only [List.getD_cons_zero, List.getD_cons_succ]
  rw [jsOr_of_ne_nil (data_ne_nil_of_ne_empty hcity), parseField_plain h1,
    parseField_quoted h2, parseField_quoted h3, parseField_plain h4,
    parseField_plain h5, parseField_quoted h6, parseField_plain h7,
    if_neg (data_ne_nil_of_ne_empty hid),
    jsOr_of_ne_nil (data_ne_nil_of_ne_empty hname),
    jsOr_of_ne_nil (data_ne_nil_of_ne_empty hcity)]

theorem parseRow_encodeEmp {e : Employee} (hg : goodEmp e = true) :
    parseRow (encodeEmp e) = some e := by
  unfold parseRow
  rw [if_neg (trimChars_ne_nil (comma_mem_encodeEmp e) (by decide)),
    splitOnChar_encodeEmp hg, if_neg (by simp)]
  exact rowEmp_encodeFields hg

theorem filterMap_parseRow_map_encode :
    ∀ (emps : List Employee), (∀ e ∈ emps, goodEmp e = true) →
      (emps.map encodeEmp).filterMap parseRow = emps
  | [], _ => rfl
  | e :: es, h => by
    rw [List.map_cons, List.filterMap_cons, parseRow_encodeEmp (h e (by simp)),
      filterMap_parseRow_map_encode es (fun x hx => h x (List.mem_cons_of_mem _ hx))]

theorem csv_roundtrip {emps : List Employee} (h : ∀ e ∈ emps, goodEmp e = true) :
    readEmployees (some (writeEmployees emps)) = emps := by
  have hlinesN : ∀ l ∈ headerChars :: emps.map encodeEmp, l ≠ [] := by
    intro l hl
    rcases List.mem_cons.mp hl with rfl | hl2
    · decide
    · obtain ⟨e, he, rfl⟩ := List.mem_map.mp hl2
      exact encodeEmp_ne_nil e
  have hlastOK : ∀ l ∈ headerChars :: emps.map encodeEmp,
      ∀ c, l.getLast? = some c → isWS c = false := by
    intro l hl
    rcases List.mem_cons.mp hl with rfl | hl2
    · intro c hc
      rw [show headerChars.getLast? = some 'n' by decide] at hc
      simp only [Option.some.injEq] at hc
      rw [← hc]
      decide
    · obtain ⟨e, he, rfl⟩ := List.mem_map.mp hl2
      exact lastOK_encodeEmp (h e he)
  have hnoNL : ∀ l ∈ headerChars :: emps.map encodeEmp, '\n' ∉ l := by
    intro l hl
    rcases List.mem_cons.mp hl with rfl | hl2
    · decide
    · obtain ⟨e, he, rfl⟩ := List.mem_map.mp hl2
      exact not_mem_encodeEmp (by decide) (by decide) (by decide) (h e he)
  have hnoCR : ∀ l ∈ headerChars :: emps.map encodeEmp, '\r' ∉ l := by
    intro l hl
    rcases List.mem_cons.mp hl with rfl | hl2
    · decide
    · obtain ⟨e, he, rfl⟩ := List.mem_map.mp hl2
      exact not_mem_encodeEmp (by decide) (by decide) (by decide) (h e he)
  have hchead : (intercalateChar '\n' (headerChars :: emps.map encodeEmp)).head? =
      some 'i' := by
    rw [head?_intercalateChar _ _ _ (by decide)]
    decide
  have hclast : ∀ c,
      (intercalateChar '\n' (headerChars :: emps.map encodeEmp)).getLast? = some c →
        isWS c = false :=
    getLast?_intercalateChar_of_ne_nil '\n' _ hlinesN hlastOK
  have hheadOK : ∀ c,
      (intercalateChar '\n' (headerChars :: emps.map encodeEmp)).head? = some c →
        isWS c = false := by
    intro c hc
    rw [hchead] at hc
    simp only [Option.some.injEq] at hc
    rw [← hc]
    decide
  have htrim : trimChars ((writeEmployees emps).data) =
      intercalateChar '\n' (headerChars :: emps.map encodeEmp) := by
    rw [show (writeEmployees emps).data =
        intercalateChar '\n' (headerChars :: emps.map encodeEmp) ++ ['\n'] from rfl]
    exact trimChars_append_nl hheadOK hclast
  have hcne : intercalateChar '\n' (headerChars :: emps.map encodeEmp) ≠ [] := by
    intro hz
    rw [hz] at hchead
    simp at hchead
  have hcr : '\r' ∉ intercalateChar '\n' (headerChars :: emps.map encodeEmp) :=
    not_mem_intercalateChar (by decide) hnoCR
  show (if trimChars (writeEmployees emps).data = [] then []
    else ((splitOnChar '\n'
      (normNewlines (trimChars (writeEmployees emps).data))).drop 1).filterMap
        parseRow) = emps
  rw [htrim, if_neg hcne, normNewlines_of_not_mem hcr,
    splitOnChar_intercalateChar '\n' _ (by simp) hnoNL]
  simp only [List.drop_succ_cons, List.drop_zero]
  exact filterMap_parseRow_map_encode emps h

/-! ## Lemmas about the handlers -/

theorem recordSetEq_refl (l : List Employee) : recordSetEq l l = true := by
  unfold recordSetEq
  rw [Bool.and_self, List.all_eq_true]
  intro e he
  exact List.elem_iff.mpr he

theorem updateFirst_append {f : Employee → Employee} {id : String} :
    ∀ (pre : List Employee) (emp : Employee) (post : List Employee),
      (∀ e ∈ pre, e.id ≠ id) → emp.id = id →
      updateFirst f id (pre ++ emp :: post) = pre ++ f emp :: post
  | [], emp, post, _, hemp => by simp [updateFirst, hemp]
  | p :: ps, emp, post, hpre, hemp => by
    rw [List.cons_append, updateFirst, if_neg (hpre p (by simp)),
      updateFirst_append ps emp post
        (fun x hx => hpre x (List.mem_cons_of_mem _ hx)) hemp,
      List.cons_append]

theorem map_id_updateFirst (f : Employee → Employee) (hf : ∀ e, (f e).id = e.id)
    (id : String) :
    ∀ l : List Employee, (updateFirst f id l).map Employee.id = l.map Employee.id
  | [] => rfl
  | e :: es => by
    rw [updateFirst]
    by_cases he : e.id = id
    · rw [if_pos he]
      simp [hf]
    · rw [if_neg he]
      simp [map_id_updateFirst f hf id es]

theorem idsUnique_filter_append {store : List Employee} {id : String}
    (h : idsUnique store) (e : Employee) (he : e.id = id) :
    idsUnique (store.filter (fun x => ¬x.id = id) ++ [e]) := by
  unfold idsUnique at h ⊢
  rw [List.map_append, List.nodup_append]
  refine ⟨((List.filter_sublist store).map Employee.id).nodup h, by simp, ?_⟩
  intro x hx hy
  simp only [List.map_cons, List.map_nil, List.mem_singleton] at hy
  obtain ⟨y, hyl, rfl⟩ := List.mem_map.mp hx
  rw [List.mem_filter] at hyl
  have h2 : ¬y.id = id := by simpa using hyl.2
  exact h2 (by rw [hy, he])

theorem idsUnique_append_new {store : List Employee} (h : idsUnique store)
    {id name email : String} (hnew : store.any (fun e => e.id = id) = false) :
    idsUnique (store ++ [⟨id, name, email, "", "", "Unknown", ""⟩]) := by
  unfold idsUnique at h ⊢
  rw [List.map_append, List.nodup_append]
  refine ⟨h, by simp, ?_⟩
  intro x hx hy
  simp only [List.map_cons, List.map_nil, List.mem_singleton] at hy
  obtain ⟨y, hyl, rfl⟩ := List.mem_map.mp hx
  rw [List.any_eq_false] at hnew
  have h2 : ¬y.id = id := by simpa using hnew y hyl
  exact h2 hy

/-- The integer form of `getCacheKey`'s rounding agrees with
`⌊x·10 + 1/2⌋`, JavaScript's `Math.round(x*10)`. -/
theorem jsRound10_eq (q : ℚ) : jsRound10 q = ⌊q * 10 + 1 / 2⌋ := by
  have hd0 : (q.den : ℚ) ≠ 0 := Nat.cast_ne_zero.mpr q.den_nz
  have hnum : (q.num : ℚ) = q * q.den := by
    have h0 := Rat.num_div_den q
    rw [div_eq_iff hd0] at h0
    rw [h0]
  have h : q * 10 + 1 / 2 =
      ((20 * q.num + (q.den : ℤ) : ℤ) : ℚ) / ((2 * q.den : ℕ) : ℚ) := by
    push_cast
    field_simp
    rw [hnum]
    ring
  rw [h, Rat.floor_intCast_div_natCast]
  unfold jsRound10
  push_cast
  rfl

/-! ## Claim theorems -/

/-- **C4**, counterexample: a stop-sharing request whose id is missing (the
falsy `""`) carries an id unknown to every store — the empty store here — yet
the outcome is the 400 `badRequest`, not the success the claim promises for
every unknown id. -/
theorem stop_sharing_empty_id_cex :
    (stopSharing [] "").1 = StopResult.badRequest ∧
    (stopSharing [] "").1 ≠ StopResult.success := by decide

/-- **C4** (amended): for a stop-sharing request with a nonempty id — if the
id is unknown it reports success and leaves the store untouched; if the id is
known it blanks the first matching record's latitude, longitude and last-seen
to `""`, resets its place name to `Unknown`, leaves every other record
untouched, and persists that store.  A missing (empty) id instead fails with
a 400 and leaves the store untouched. -/
theorem stop_sharing_spec (store : List Employee) (id : String) :
    stopSharing store "" = (StopResult.badRequest, store) ∧
    (id ≠ "" → (∀ e ∈ store, e.id ≠ id) →
      stopSharing store id = (StopResult.success, store)) ∧
    (id ≠ "" → ∀ pre emp post, store = pre ++ emp :: post →
      (∀ e ∈ pre, e.id ≠ id) → emp.id = id →
      stopSharing store id = (StopResult.success, pre ++ clearLoc emp :: post)) := by
  refine ⟨rfl, ?_, ?_⟩
  · intro hid habs
    unfold stopSharing
    rw [if_neg hid]
    have hany : store.any (fun e => e.id = id) = false := by
      rw [List.any_eq_false]
      intro e he
      simpa using habs e he
    rw [if_neg (by simp [hany])]
  · intro hid pre emp post hsplit hpre hemp
    unfold stopSharing
    rw [if_neg hid]
    have hany : store.any (fun e => e.id = id) = true := by
      rw [List.any_eq_true]
      exact ⟨emp, by rw [hsplit]; simp, by simpa using hemp⟩
    rw [if_pos hany, hsplit, updateFirst_append pre emp post hpre hemp]

/-- **C4**, witness: blanking a known id at a concrete store. -/
theorem stop_sharing_spec_witness :
    stopSharing [wEmp] "e1" = (StopResult.success, [clearLoc wEmp]) := by
  have h := (stop_sharing_spec [wEmp] "e1").2.2 (by decide) [] wEmp [] rfl
    (by simp) (by decide)
  simpa using h

/-- **C10**: both revisions of `readEmployees` are total at the interface:
a missing file or thrown read error (`none`) and empty or whitespace-only
content all produce the empty record list, so a failed read is
indistinguishable from an empty employee set. -/
theorem read_employees_total_degenerate :
    readEmployees none = [] ∧ readEmployees2 none = [] ∧
    (∀ s : String, trimChars s.data = [] →
      readEmployees (some s) = [] ∧ readEmployees2 (some s) = []) ∧
    readEmployees none = readEmployees (some "") := by
  refine ⟨rfl, rfl, ?_, by decide⟩
  intro s hz
  constructor
  · show (if trimChars s.data = [] then []
      else ((splitOnChar '\n'
        (normNewlines (trimChars s.data))).drop 1).filterMap parseRow) = []
    rw [if_pos hz]
  · show (if trimChars s.data = [] then []
      else ((splitOnChar '\n' (trimChars s.data)).drop 1).filterMap parseRow2) = []
    rw [if_pos hz]

/-- **C10**, witness: whitespace-only content reads as the empty list. -/
theorem read_employees_total_degenerate_witness :
    readEmployees (some "  \n ") = [] ∧ readEmployees2 (some "  \n ") = [] :=
  read_employees_total_degenerate.2.2.1 "  \n " (by decide)

/-- **C8**: the first revision's reader equals dropping the header and
parsing each line, and a line parses to nothing exactly when it has fewer
than 7 comma-separated fields or its parsed id (first field, quotes stripped,
trimmed) is empty — a blank line is an instance of the former, since it can
contain no comma.  Skipping is by returning `none`, never by raising. -/
theorem read_employees_skips_exactly :
    (∀ s : String, readEmployees (some s) =
      ((splitOnChar '\n' (normNewlines (trimChars s.data))).drop 1).filterMap
        parseRow) ∧
    ∀ line : Chars, parseRow line = none ↔
      ((splitOnChar ',' line).length < 7 ∨
        parseField ((splitOnChar ',' line).getD 0 []) = []) := by
  constructor
  · intro s
    show (if trimChars s.data = [] then []
      else ((splitOnChar '\n'
        (normNewlines (trimChars s.data))).drop 1).filterMap parseRow) = _
    by_cases hz : trimChars s.data = []
    · rw [if_pos hz, hz]
      rfl
    · rw [if_neg hz]
  · intro line
    constructor
    · intro hn
      unfold parseRow at hn
      by_cases hz : trimChars line = []
      · left
        have hcm : ',' ∉ line := by
          intro hm
          have h2 := mem_trimChars_all_ws hz ',' hm
          simp [isWS] at h2
        rw [splitOnChar_of_not_mem hcm]
        simp
      · rw [if_neg hz] at hn
        by_cases hlen : (splitOnChar ',' line).length < 7
        · exact Or.inl hlen
        · rw [if_neg hlen] at hn
          unfold rowEmp at hn
          by_cases hid : parseField ((splitOnChar ',' line).getD 0 []) = []
          · exact Or.inr hid
          · rw [if_neg hid] at hn
            simp at hn
    · intro hd
      unfold parseRow
      by_cases hz : trimChars line = []
      · rw [if_pos hz]
      · rw [if_neg hz]
        rcases hd with hlen | hid
        · rw [if_pos hlen]
        · by_cases hlen : (splitOnChar ',' line).length < 7
          · rw [if_pos hlen]
          · rw [if_neg hlen]
            unfold rowEmp
            rw [if_pos hid]

/-- **C8**, witness: a malformed row is skipped, a well-formed row is kept. -/
theorem read_employees_skips_exactly_witness :
    parseRow "a,b,c".data = none ∧
    parseRow ",\"n\",\"e\",1,2,\"c\",t".data = none := by
  constructor
  · exact (read_employees_skips_exactly.2 "a,b,c".data).mpr (Or.inl (by decide))
  · exact (read_employees_skips_exactly.2 ",\"n\",\"e\",1,2,\"c\",t".data).mpr
      (Or.inr (by decide))

/-- **C2**: an update-location request whose id is missing, whose coordinate
is missing or unparsable (`none`), or whose coordinate is outside
[-90, 90] × [-180, 180] gets the 400 client-error outcome and leaves the
record store exactly as it was, in both revisions. -/
theorem update_location_rejects_invalid
    (upstream : ℚ → ℚ → Option GeoResponse) (now : ℤ) (nowIso : String)
    (cache : Cache) (store : List Employee) (id : String) (lat? lng? : Option ℚ)
    (hbad : id = "" ∨ lat? = none ∨ lng? = none ∨
      (∃ q, lat? = some q ∧ (q < -90 ∨ 90 < q)) ∨
      (∃ q, lng? = some q ∧ (q < -180 ∨ 180 < q))) :
    (updateLocation upstream now nowIso cache store id lat? lng?).1.isClientError
        = true ∧
    (updateLocation upstream now nowIso cache store id lat? lng?).2.1 = store ∧
    (updateLocation2 upstream now nowIso cache store id lat? lng?).1.isClientError
        = true ∧
    (updateLocation2 upstream now nowIso cache store id lat? lng?).2.1 = store := by
  rcases hbad with h | h | h | ⟨q, hq, hr⟩ | ⟨q, hq, hr⟩
  · cases lat? <;> cases lng? <;>
      simp [updateLocation, updateLocation2, UpdateResult.isClientError, h]
  · subst h
    cases lng? <;> simp [updateLocation, updateLocation2, UpdateResult.isClientError]
  · subst h
    cases lat? <;> simp [updateLocation, updateLocation2, UpdateResult.isClientError]
  · subst hq
    cases lng? with
    | none => simp [updateLocation, updateLocation2, UpdateResult.isClientError]
    | some b =>
      by_cases hid : id = ""
      · simp [updateLocation, updateLocation2, UpdateResult.isClientError, hid]
      · have hc : q < -90 ∨ 90 < q ∨ b < -180 ∨ 180 < b := by
          rcases hr with h | h
          · exact Or.inl h
          · exact Or.inr (Or.inl h)
        simp only [updateLocation, updateLocation2]
        rw [if_neg hid, if_neg hid, if_pos hc, if_pos hc]
        exact ⟨rfl, rfl, rfl, rfl⟩
  · subst hq
    cases lat? with
    | none => simp [updateLocation, updateLocation2, UpdateResult.isClientError]
    | some a =>
      by_cases hid : id = ""
      · simp [updateLocation, updateLocation2, UpdateResult.isClientError, hid]
      · have hc : a < -90 ∨ 90 < a ∨ q < -180 ∨ 180 < q := by
          rcases hr with h | h
          · exact Or.inr (Or.inr (Or.inl h))
          · exact Or.inr (Or.inr (Or.inr h))
        simp only [updateLocation, updateLocation2]
        rw [if_neg hid, if_neg hid, if_pos hc, if_pos hc]
        exact ⟨rfl, rfl, rfl, rfl⟩

/-- **C2**, witness: latitude 95 is rejected with a 400 and the store keeps
its one record. -/
theorem update_location_rejects_invalid_witness :
    (updateLocation upFail 0 "t" emptyCache [wEmp] "e1" (some 95) (some 0)).1.isClientError
        = true ∧
    (updateLocation upFail 0 "t" emptyCache [wEmp] "e1" (some 95) (some 0)).2.1 = [wEmp] ∧
    (updateLocation2 upFail 0 "t" emptyCache [wEmp] "e1" (some 95) (some 0)).1.isClientError
        = true ∧
    (updateLocation2 upFail 0 "t" emptyCache [wEmp] "e1" (some 95) (some 0)).2.1 = [wEmp] :=
  update_location_rejects_invalid upFail 0 "t" emptyCache [wEmp] "e1" (some 95)
    (some 0)
    (Or.inr (Or.inr (Or.inr (Or.inl ⟨95, rfl, Or.inr (by decide)⟩))))

/-- **C3**: a valid in-range update-location request for an id absent from
the store answers 404 not-found and leaves the record store exactly as it
was — no record is created — in both revisions. -/
theorem update_location_unknown_id
    (upstream : ℚ → ℚ → Option GeoResponse) (now : ℤ) (nowIso : String)
    (cache : Cache) (store : List Employee) (id : String) (a b : ℚ)
    (hid : id ≠ "") (hlat1 : -90 ≤ a) (hlat2 : a ≤ 90) (hlng1 : -180 ≤ b)
    (hlng2 : b ≤ 180) (habsent : ∀ e ∈ store, e.id ≠ id) :
    (updateLocation upstream now nowIso cache store id (some a) (some b)).1
        = UpdateResult.notFound ∧
    (updateLocation upstream now nowIso cache store id (some a) (some b)).2.1
        = store ∧
    (updateLocation2 upstream now nowIso cache store id (some a) (some b)).1
        = UpdateResult.notFound ∧
    (updateLocation2 upstream now nowIso cache store id (some a) (some b)).2.1
        = store := by
  have hrange : ¬(a < -90 ∨ 90 < a ∨ b < -180 ∨ 180 < b) := by
    push_neg
    exact ⟨hlat1, hlat2, hlng1, hlng2⟩
  have hfind : store.find? (fun e => e.id = id) = none := by
    rw [List.find?_eq_none]
    intro e he
    simpa using habsent e he
  have hany : store.any (fun e => e.id = id) = false := by
    rw [List.any_eq_false]
    intro e he
    simpa using habsent e he
  simp only [updateLocation, updateLocation2]
  rw [if_neg hid, if_neg hid, if_neg hrange, if_neg hrange, hfind,
    if_neg (by simp [hany])]
  exact ⟨rfl, rfl, rfl, rfl⟩

/-- **C3**, witness: a valid update for the unknown id `e9` against a
one-record store. -/
theorem update_location_unknown_id_witness :
    (updateLocation upFail 0 "t" emptyCache [wEmp] "e9" (some 40) (some 0)).1
        = UpdateResult.notFound ∧
    (updateLocation upFail 0 "t" emptyCache [wEmp] "e9" (some 40) (some 0)).2.1
        = [wEmp] ∧
    (updateLocation2 upFail 0 "t" emptyCache [wEmp] "e9" (some 40) (some 0)).1
        = UpdateResult.notFound ∧
    (updateLocation2 upFail 0 "t" emptyCache [wEmp] "e9" (some 40) (some 0)).2.1
        = [wEmp] :=
  update_location_unknown_id upFail 0 "t" emptyCache [wEmp] "e9" 40 0
    (by decide) (by decide) (by decide) (by decide) (by decide) (by decide)

/-- **C9**: starting from a store with unique record ids, each mutating
handler — update-location in both revisions, stop-sharing, and
create-employee — leaves the persisted record set with unique ids. -/
theorem mutations_preserve_unique_ids
    (upstream : ℚ → ℚ → Option GeoResponse) (now : ℤ) (nowIso : String)
    (cache : Cache) (store : List Employee)
    (uid sid cid cname cemail : String) (lat? lng? : Option ℚ)
    (h : idsUnique store) :
    idsUnique (updateLocation upstream now nowIso cache store uid lat? lng?).2.1 ∧
    idsUnique (updateLocation2 upstream now nowIso cache store uid lat? lng?).2.1 ∧
    idsUnique (stopSharing store sid).2 ∧
    idsUnique (createEmployee store cid cname cemail).2 := by
  refine ⟨?_, ?_, ?_, ?_⟩
  · cases lat? with
    | none => cases lng? <;> exact h
    | some a =>
      cases lng? with
      | none => exact h
      | some b =>
        simp only [updateLocation]
        by_cases hid : uid = ""
        · rw [if_pos hid]; exact h
        · rw [if_neg hid]
          by_cases hr : a < -90 ∨ 90 < a ∨ b < -180 ∨ 180 < b
          · rw [if_pos hr]; exact h
          · rw [if_neg hr]
            cases hf : store.find? (fun e => e.id = uid) with
            | none => simp only [hf]; exact h
            | some emp =>
              simp only [hf]
              exact idsUnique_filter_append h _ rfl
  · cases lat? with
    | none => cases lng? <;> exact h
    | some a =>
      cases lng? with
      | none => exact h
      | some b =>
        simp only [updateLocation2]
        by_cases hid : uid = ""
        · rw [if_pos hid]; exact h
        · rw [if_neg hid]
          by_cases hr : a < -90 ∨ 90 < a ∨ b < -180 ∨ 180 < b
          · rw [if_pos hr]; exact h
          · rw [if_neg hr]
            cases ha : store.any (fun e => e.id = uid) with
            | false => rw [if_neg (by simp)]; exact h
            | true =>
              rw [if_pos rfl]
              unfold idsUnique
              rw [map_id_updateFirst
                (setLoc a b (getCityFromCoordinates upstream now cache a b).city nowIso)
                (fun e => rfl) uid store]
              exact h
  · unfold stopSharing
    by_cases hid : sid = ""
    · rw [if_pos hid]; exact h
    · rw [if_neg hid]
      cases ha : store.any (fun e => e.id = sid) with
      | false => rw [if_neg (by simp)]; exact h
      | true =>
        rw [if_pos rfl]
        unfold idsUnique
        rw [map_id_updateFirst clearLoc (fun e => rfl) sid store]
        exact h
  · unfold createEmployee
    by_cases h1 : cid = "" ∨ cname = "" ∨ cemail = ""
    · rw [if_pos h1]; exact h
    · rw [if_neg h1]
      cases ha : store.any (fun e => e.id = cid) with
      | true => rw [if_pos rfl]; exact h
      | false =>
        rw [if_neg (by simp)]
        exact idsUnique_append_new h ha

/-- **C9**, witness: a two-record store with distinct ids stays
duplicate-free under all four mutations at concrete inputs. -/
theorem mutations_preserve_unique_ids_witness :
    idsUnique (updateLocation upFail 0 "t" emptyCache [wEmp, wEmp2] "e1"
      (some 40) (some 0)).2.1 ∧
    idsUnique (updateLocation2 upFail 0 "t" emptyCache [wEmp, wEmp2] "e1"
      (some 40) (some 0)).2.1 ∧
    idsUnique (stopSharing [wEmp, wEmp2] "e2").2 ∧
    idsUnique (createEmployee [wEmp, wEmp2] "e3" "Cam" "c@x.com").2 :=
  mutations_preserve_unique_ids upFail 0 "t" emptyCache [wEmp, wEmp2]
    "e1" "e2" "e3" "Cam" "c@x.com" (some 40) (some 0) (by decide)

theorem fetchCity_called (u : ℚ → ℚ → Option GeoResponse) (now : ℤ)
    (cache : Cache) (lat lng : ℚ) : (fetchCity u now cache lat lng).called = true := by
  unfold fetchCity
  cases u lat lng <;> rfl

theorem fetchCity_cache_self (u : ℚ → ℚ → Option GeoResponse) (now : ℤ)
    (cache : Cache) (lat lng : ℚ) :
    (fetchCity u now cache lat lng).cache (getCacheKey lat lng) =
      some ⟨(fetchCity u now cache lat lng).city, now⟩ := by
  unfold fetchCity
  cases u lat lng <;> simp

theorem getCity_hit {u : ℚ → ℚ → Option GeoResponse} {now : ℤ} {cache : Cache}
    {lat lng : ℚ} {e : CacheEntry} (hc : cache (getCacheKey lat lng) = some e)
    (hfresh : now - e.timestamp < CACHE_TTL) :
    getCityFromCoordinates u now cache lat lng = ⟨e.city, cache, false⟩ := by
  unfold getCityFromCoordinates
  simp only [hc]
  rw [if_pos hfresh]

theorem getCity_miss_none {u : ℚ → ℚ → Option GeoResponse} {now : ℤ}
    {cache : Cache} {lat lng : ℚ} (hc : cache (getCacheKey lat lng) = none) :
    getCityFromCoordinates u now cache lat lng = fetchCity u now cache lat lng := by
  unfold getCityFromCoordinates
  simp only [hc]

theorem getCity_miss_stale {u : ℚ → ℚ → Option GeoResponse} {now : ℤ}
    {cache : Cache} {lat lng : ℚ} {e : CacheEntry}
    (hc : cache (getCacheKey lat lng) = some e)
    (hstale : ¬(now - e.timestamp < CACHE_TTL)) :
    getCityFromCoordinates u now cache lat lng = fetchCity u now cache lat lng := by
  unfold getCityFromCoordinates
  simp only [hc]
  rw [if_neg hstale]

/-- **C5**: two lookups whose coordinates round to the same 1-decimal bucket,
the second at most TTL−1 ms after the first, make at most one upstream call
between them; and any lookup that finds its bucket entry at least TTL old
does call upstream again. -/
theorem geocode_cache_ttl
    (u : ℚ → ℚ → Option GeoResponse) (t0 t1 : ℤ) (c0 : Cache)
    (la1 ln1 la2 ln2 : ℚ)
    (hkey : getCacheKey la1 ln1 = getCacheKey la2 ln2)
    (h01 : t0 ≤ t1) (hwin : t1 - t0 < CACHE_TTL) :
    ((getCityFromCoordinates u t0 c0 la1 ln1).called &&
      (getCityFromCoordinates u t1
        (getCityFromCoordinates u t0 c0 la1 ln1).cache la2 ln2).called) = false ∧
    (∀ (now : ℤ) (c : Cache) (la ln : ℚ) (e : CacheEntry),
      c (getCacheKey la ln) = some e → CACHE_TTL ≤ now - e.timestamp →
      (getCityFromCoordinates u now c la ln).called = true) := by
  constructor
  · have hwin2 : t1 - t0 < CACHE_TTL := by omega
    have hc2 : (fetchCity u t0 c0 la1 ln1).cache (getCacheKey la2 ln2) =
        some ⟨(fetchCity u t0 c0 la1 ln1).city, t0⟩ := by
      rw [← hkey]
      exact fetchCity_cache_self u t0 c0 la1 ln1
    cases hc : c0 (getCacheKey la1 ln1) with
    | some e =>
      by_cases hfresh : t0 - e.timestamp < CACHE_TTL
      · rw [getCity_hit hc hfresh]
        simp
      · rw [getCity_miss_stale hc hfresh, getCity_hit hc2 hwin2]
        simp
    | none =>
      rw [getCity_miss_none hc, getCity_hit hc2 hwin2]
      simp
  · intro now c la ln e hce hstale
    rw [getCity_miss_stale hce (by omega)]
    exact fetchCity_called u now c la ln

/-- **C5**, witness: (40.71, −74.00) and (40.74, −74.02) share the bucket
(407, −740); against an empty cache the first lookup calls upstream and the
second, 1 ms later, does not. -/
theorem geocode_cache_ttl_witness :
    ((getCityFromCoordinates upFail 0 emptyCache qa qc).called &&
      (getCityFromCoordinates upFail 1
        (getCityFromCoordinates upFail 0 emptyCache qa qc).cache qb qd).called)
      = false ∧
    (∀ (now : ℤ) (c : Cache) (la ln : ℚ) (e : CacheEntry),
      c (getCacheKey la ln) = some e → CACHE_TTL ≤ now - e.timestamp →
      (getCityFromCoordinates upFail now c la ln).called = true) :=
  geocode_cache_ttl upFail 0 1 emptyCache qa qc qb qd (by decide) (by decide)
    (by decide)

/-- **C6**: when the upstream reverse-geocode fails (network error, non-ok
status, or parse failure — all `none`), the lookup returns `Unknown`, caches
`⟨Unknown, now⟩` under the bucket key, and a valid update-location request
for a known id still succeeds, answering `ok "Unknown"`. -/
theorem geocode_failure_degrades
    (u : ℚ → ℚ → Option GeoResponse) (now : ℤ) (nowIso : String)
    (cache : Cache) (store : List Employee) (id : String) (a b : ℚ)
    (hup : u a b = none)
    (hstale : ∀ e, cache (getCacheKey a b) = some e →
      CACHE_TTL ≤ now - e.timestamp)
    (hid : id ≠ "") (hlat1 : -90 ≤ a) (hlat2 : a ≤ 90)
    (hlng1 : -180 ≤ b) (hlng2 : b ≤ 180)
    (hfound : ∃ e ∈ store, e.id = id) :
    (getCityFromCoordinates u now cache a b).city = "Unknown" ∧
    (getCityFromCoordinates u now cache a b).cache (getCacheKey a b) =
      some ⟨"Unknown", now⟩ ∧
    (updateLocation u now nowIso cache store id (some a) (some b)).1 =
      UpdateResult.ok "Unknown" := by
  have hfetch1 : (fetchCity u now cache a b).city = "Unknown" := by
    unfold fetchCity
    rw [hup]
  have hgeo : getCityFromCoordinates u now cache a b = fetchCity u now cache a b := by
    cases hc : cache (getCacheKey a b) with
    | none => exact getCity_miss_none hc
    | some e => exact getCity_miss_stale hc (by have h2 := hstale e hc; omega)
  refine ⟨by rw [hgeo, hfetch1], ?_, ?_⟩
  · rw [hgeo]
    have h2 := fetchCity_cache_self u now cache a b
    rw [hfetch1] at h2
    exact h2
  · have hrange : ¬(a < -90 ∨ 90 < a ∨ b < -180 ∨ 180 < b) := by
      push_neg
      exact ⟨hlat1, hlat2, hlng1, hlng2⟩
    obtain ⟨emp, hemp⟩ : ∃ emp, store.find? (fun e => e.id = id) = some emp := by
      obtain ⟨e, he, heid⟩ := hfound
      cases hf : store.find? (fun e => e.id = id) with
      | some emp => exact ⟨emp, rfl⟩
      | none =>
        rw [List.find?_eq_none] at hf
        exact absurd (by simpa using heid) (hf e he)
    simp only [updateLocation]
    rw [if_neg hid, if_neg hrange]
    simp only [hemp]
    rw [hgeo, hfetch1]

/-- **C6**, witness: a failing upstream at bucket (407, −740), an empty
cache, and the known id `e1`. -/
theorem geocode_failure_degrades_witness :
    (getCityFromCoordinates upFail 0 emptyCache qa qc).city = "Unknown" ∧
    (getCityFromCoordinates upFail 0 emptyCache qa qc).cache (getCacheKey qa qc) =
      some ⟨"Unknown", 0⟩ ∧
    (updateLocation upFail 0 "t" emptyCache [wEmp] "e1" (some qa) (some qc)).1 =
      UpdateResult.ok "Unknown" :=
  geocode_failure_degrades upFail 0 "t" emptyCache [wEmp] "e1" qa qc rfl
    (fun _ h => nomatch h) (by decide) (by decide) (by decide) (by decide)
    (by decide) (by decide)

theorem filterMap_jsTruthy_head (x : Option String) (xs : List (Option String)) :
    ((x :: xs).filterMap jsTruthy).head? =
      (jsTruthy x <|> (xs.filterMap jsTruthy).head?) := by
  cases h : jsTruthy x with
  | none => simp [List.filterMap_cons, h]
  | some s => simp [List.filterMap_cons, h]

/-- **C7**, counterexample: with no usable structured field and display name
`Springfield, IL`, the code resolves `Near Springfield` — not the leading
display-name segment `Springfield` the claim states, and not `Unknown`.
Moreover a present-but-empty `city` field is skipped rather than used (the
claim says first *present* field), and with an address object but nothing
usable at all the result is `Near Unknown Location`, not `Unknown`. -/
theorem pick_city_cex :
    pickCity respDisplayOnly = "Near Springfield" ∧
    firstSegment "Springfield, IL" = "Springfield" ∧
    pickCity respDisplayOnly ≠ firstSegment "Springfield, IL" ∧
    pickCity respDisplayOnly ≠ "Unknown" ∧
    pickCity ⟨some ⟨some "", some "Boston", none, none, none, none, none⟩, none⟩
      = "Boston" ∧
    pickCity ⟨some ⟨none, none, none, none, none, none, none⟩, none⟩
      = "Near Unknown Location" := by decide

/-- **C7** (amended): in both revisions the resolved name is the first
nonempty (truthy) structured field in the fixed priority order, and the
literal `Unknown` when the response carries no address object.  With an
address object but no usable field, the fallback is `Near` followed by the
leading display-name segment — in the first revision a missing display name
or an empty leading segment yields `Near Unknown Location`, while in the
second revision a missing display name throws inside the try block so the
catch resolves `Unknown`, and an empty leading segment yields the bare
`"Near "`. -/
theorem pick_city_amended :
    (∀ r : GeoResponse, pickCity r = amendedPlaceName r) ∧
    (∀ r : GeoResponse, resolvedCity2 r = amendedPlaceName2 r) := by
  constructor
  · intro r
    unfold pickCity amendedPlaceName
    cases r with
    | mk addr disp =>
      cases addr with
      | none => rfl
      | some a =>
        simp only [filterMap_jsTruthy_head, List.filterMap_nil, List.head?_nil,
          Option.orElse_none]
        cases hchain : (jsTruthy a.city <|> jsTruthy a.town <|> jsTruthy a.village <|>
            jsTruthy a.hamlet <|> jsTruthy a.county <|> jsTruthy a.state <|>
            jsTruthy a.country) with
        | some c => rfl
        | none =>
          cases disp with
          | none => rfl
          | some d =>
            show "Near " ++ (if firstSegment d = "" then "Unknown Location"
                else firstSegment d) =
              (if firstSegment d = "" then "Near Unknown Location"
                else "Near " ++ firstSegment d)
            by_cases hseg : firstSegment d = ""
            · rw [if_pos hseg, if_pos hseg]
              rfl
            · rw [if_neg hseg, if_neg hseg]
  · intro r
    unfold resolvedCity2 pickCity2 amendedPlaceName2
    cases r with
    | mk addr disp =>
      cases addr with
      | none => rfl
      | some a =>
        simp only [filterMap_jsTruthy_head, List.filterMap_nil, List.head?_nil,
          Option.orElse_none]
        cases hchain : (jsTruthy a.city <|> jsTruthy a.town <|> jsTruthy a.village <|>
            jsTruthy a.hamlet <|> jsTruthy a.county <|> jsTruthy a.state <|>
            jsTruthy a.country) with
        | some c => rfl
        | none =>
          cases disp with
          | none => rfl
          | some d => rfl

/-- **C7**, witness: the amended resolution evaluated at the display-only
response for the first revision, and at a response with an address object
but no display name for the second revision — where the thrown fallback
resolves `Unknown`. -/
theorem pick_city_amended_witness :
    pickCity respDisplayOnly = amendedPlaceName respDisplayOnly ∧
    resolvedCity2 ⟨some ⟨none, none, none, none, none, none, none⟩, none⟩ =
      amendedPlaceName2 ⟨some ⟨none, none, none, none, none, none, none⟩, none⟩ ∧
    resolvedCity2 ⟨some ⟨none, none, none, none, none, none, none⟩, none⟩ =
      "Unknown" :=
  ⟨pick_city_amended.1 respDisplayOnly,
   pick_city_amended.2 ⟨some ⟨none, none, none, none, none, none, none⟩, none⟩,
   by decide⟩

/-- **C1**, counterexample: every field of `cexEmp` is free of newline
characters, yet saving `[cexEmp]` and reloading yields a record set unequal
to the original — the comma inside the name shifts every later field. -/
theorem csv_roundtrip_cex :
    ([cexEmp].all (fun e => (empFields e).all noNewline)) = true ∧
    recordSetEq (readEmployees (some (writeEmployees [cexEmp]))) [cexEmp] = false := by
  constructor
  · decide
  · decide

/-- **C1** (amended): for records whose fields contain no comma, quote, LF or
CR, carry no leading or trailing whitespace, and whose id, name and city are
nonempty — the values the reader would otherwise drop or default — saving
via `writeEmployees` and reloading via `readEmployees` returns the records
exactly, hence equal as unordered collections keyed by id. -/
theorem csv_write_read_roundtrip (emps : List Employee)
    (h : ∀ e ∈ emps, goodEmp e = true) :
    readEmployees (some (writeEmployees emps)) = emps ∧
    recordSetEq (readEmployees (some (writeEmployees emps))) emps = true := by
  have h1 := csv_roundtrip h
  exact ⟨h1, by rw [h1]; exact recordSetEq_refl emps⟩

/-- **C1**, witness: a two-record store, one record with blanked location,
round-trips. -/
theorem csv_write_read_roundtrip_witness :
    readEmployees (some (writeEmployees [wEmp, wEmp2])) = [wEmp, wEmp2] ∧
    recordSetEq (readEmployees (some (writeEmployees [wEmp, wEmp2])))
      [wEmp, wEmp2] = true :=
  csv_write_read_roundtrip [wEmp, wEmp2] (by decide)

end LocTrack
